import Mathlib

/-!
# glFFmpeg: the encoding session of `glffmpeg.cpp`

A shallow embedding of `src/glffmpeg/glffmpeg.cpp`:

* the pixel memory touched by the "flip the YUV frame upside down" step of
  `ffmpegHelper::encodeFrame` (three `for` loops of three `memcpy` calls each),
* the session object `ffmpegHelper` (`configure`, `getStatus`, `encodeFrame`,
  destructor),
* the C entry points working on the registry `s_ffmpegHelpers`.

Memory is a list of bytes, a pointer is an integer offset into the object it
points into, and a copy that leaves its object has no result (`none`).
Calls into libavcodec / libavformat are answered by an explicit record of
outcomes that the caller of the model supplies.
-/

namespace GLFFmpeg

/-! ## Pixel memory -/

/-- One `unsigned char`. -/
abbrev Byte := Fin 256

/-- Number of elements of `static unsigned char b[24000]` in `encodeFrame`. -/
def ROW_TEMP_SIZE : Nat := 24000

/-- The `n` bytes at offset `p` of an object; `none` when the range leaves the
object (or `n`, converted to `size_t`, is not a length the object has). -/
def readBytes (obj : List Byte) (p n : Int) : Option (List Byte) :=
  if 0 ≤ p ∧ 0 ≤ n ∧ p + n ≤ obj.length then
    some ((obj.drop p.toNat).take n.toNat)
  else none

/-- Overwrite the bytes at offset `p` of an object with `bs`; `none` when the
range leaves the object. -/
def writeBytes (obj : List Byte) (p : Int) (bs : List Byte) : Option (List Byte) :=
  if 0 ≤ p ∧ p + bs.length ≤ obj.length then
    some (obj.take p.toNat ++ bs ++ obj.drop (p.toNat + bs.length))
  else none

/-- The call `memcpy(dst + dp, src + sp, n)` between two different objects:
the new content of the destination object. -/
def memcpy (dst : List Byte) (dp : Int) (src : List Byte) (sp n : Int) :
    Option (List Byte) :=
  (readBytes src sp n).bind (writeBytes dst dp)

/-- The call `memcpy(obj + dp, obj + sp, n)` inside one object; the two ranges
must not overlap. -/
def memcpySame (obj : List Byte) (dp sp n : Int) : Option (List Byte) :=
  if dp + n ≤ sp ∨ sp + n ≤ dp then memcpy obj dp obj sp n else none

/-- Modelled from the spec: the frame buffer descriptor `AVFrame` (declared in
libavcodec, not under src/) by its per-plane pointers and strides
(`data[0..2]`, `linesize[0..2]`); the pointers are offsets into the picture
buffer. -/
structure AVFrame where
  data0 : Int
  data1 : Int
  data2 : Int
  linesize0 : Int
  linesize1 : Int
  linesize2 : Int
deriving DecidableEq

/-- The memory the flip works on: the picture buffer behind `m_yuvFrame` and
the function-static row buffer `b`. -/
structure PixelState where
  picture : List Byte
  b : List Byte
deriving DecidableEq

/-- Body of each flip loop, with `n` the stride of that loop:
`memcpy( b, s, n ); memcpy( s, d, n ); memcpy( d, b, n );`. -/
def swapRows (n s d : Int) (st : PixelState) : Option PixelState :=
  (memcpy st.b 0 st.picture s n).bind fun b1 =>
  (memcpySame st.picture s d n).bind fun p1 =>
  (memcpy p1 d b1 0 n).bind fun p2 =>
  some { picture := p2, b := b1 }

/-- The loop `for ( ...; s < d; s += n, d -= n ) { swap }` started at the
cursors `s`, `d`.  Each unit of fuel pays for one pass of the body; `none`
when the fuel runs out with `s < d` still true or a copy has no result. -/
def flipLoop : Nat → Int → Int → Int → PixelState → Option PixelState
  | 0, _, s, d, st => if s < d then none else some st
  | fuel + 1, n, s, d, st =>
    if s < d then (swapRows n s d st).bind (flipLoop fuel n (s + n) (d - n))
    else some st

/-- The orientation-correction step of `encodeFrame` (source lines 322-350):
the three loops, over `data[0]`, `data[1]` and `data[2]`, with the start
cursors and strides exactly as written there. -/
def flipYUV (fuel : Nat) (f : AVFrame) (st : PixelState) : Option PixelState :=
  (flipLoop fuel f.linesize0 f.data0 (f.data1 - f.linesize0) st).bind fun st1 =>
  (flipLoop fuel f.linesize1 f.data1 (f.data2 - f.linesize2) st1).bind fun st2 =>
  flipLoop fuel f.linesize2 f.data2
    (f.data2 + (f.data2 - f.data1 - f.linesize2)) st2

/-- Modelled from the spec: the layout that `avpicture_fill` (libavcodec, not under
src/) gives the 4:2:0 planar picture of `width` x `height` placed at the start
of its buffer: the luma plane of `height` rows of `width` bytes, then the two
half-resolution chroma planes of `(height+1)/2` rows of `(width+1)/2` bytes
each, back to back. -/
def avpicture_fill_yuv420p (width height : Int) : AVFrame :=
  let w2 := (width + 1) / 2
  let h2 := (height + 1) / 2
  { data0 := 0
    data1 := width * height
    data2 := width * height + w2 * h2
    linesize0 := width
    linesize1 := w2
    linesize2 := w2 }

/-- Modelled from the spec: the byte count `avpicture_get_size` (libavcodec, not
under src/) reports for that picture, the sum of the three planes. -/
def avpicture_get_size_yuv420p (width height : Int) : Int :=
  width * height + 2 * (((width + 1) / 2) * ((height + 1) / 2))

/-- Row `r` of the plane that starts at offset `base` and has stride `ls`. -/
def planeRow (picture : List Byte) (base ls r : Nat) : List Byte :=
  (picture.drop (base + r * ls)).take ls

/-- A frame whose three planes lie back to back from the start of the picture
buffer: `rows` luma rows of stride `linesize[0]`, then twice `chromaRows` rows
of the common chroma stride. -/
structure PlanarLayout (f : AVFrame) (len rows chromaRows : Nat) : Prop where
  data0_eq : f.data0 = 0
  stride0_nonneg : 0 ≤ f.linesize0
  stride1_nonneg : 0 ≤ f.linesize1
  strides_eq : f.linesize1 = f.linesize2
  data1_eq : f.data1 = f.data0 + rows * f.linesize0
  data2_eq : f.data2 = f.data1 + chromaRows * f.linesize1
  len_eq : (len : Int) = f.data2 + chromaRows * f.linesize2


/-- The first `k` rows of `n` bytes of a byte list. -/
def rowsOf (n : Nat) : Nat → List Byte → List (List Byte)
  | 0, _ => []
  | k + 1, l => l.take n :: rowsOf n k (l.drop n)

/-- The rows of the three planes of a picture buffer, read off at the strides
`n0` (luma, `rows` rows) and `n1` (chroma, `chromaRows` rows each). -/
def lumaRows (picture : List Byte) (n0 rows : Nat) : List (List Byte) :=
  rowsOf n0 rows picture

/-- Rows of the first chroma plane. -/
def cbRows (picture : List Byte) (n0 rows n1 chromaRows : Nat) : List (List Byte) :=
  rowsOf n1 chromaRows (picture.drop (rows * n0))

/-- Rows of the second chroma plane. -/
def crRows (picture : List Byte) (n0 rows n1 chromaRows : Nat) : List (List Byte) :=
  rowsOf n1 chromaRows (picture.drop (rows * n0 + chromaRows * n1))

/-! ## Machine integers -/

/-- A value reduced to the range of a 32-bit `int`. -/
def toInt32 (x : Int) : Int := (x + 2147483648) % 4294967296 - 2147483648

/-- Conversion of an `int` to `size_t` (64 bits). -/
def toSizeT (x : Int) : Int := x % 18446744073709551616

/-! ## libavformat / libavcodec constants used by the file -/

/-- Modelled from the spec: the constant `CODEC_ID_NONE` of the libavcodec headers (not
under src/), the codec id of a container that declares no video codec. -/
def CODEC_ID_NONE : Int := 0
/-- Modelled from the spec: the constant `CODEC_ID_MPEG1VIDEO` of the libavcodec headers
(not under src/), the designated legacy codec that gets a decision mode. -/
def CODEC_ID_MPEG1VIDEO : Int := 1
/-- Modelled from the spec: the constant `CODEC_TYPE_VIDEO` of the libavcodec headers
(not under src/). -/
def CODEC_TYPE_VIDEO : Int := 0
/-- Modelled from the spec: the constant `PIX_FMT_YUV420P` of the libavcodec headers (not
under src/), the 4:2:0 planar pixel format. -/
def PIX_FMT_YUV420P : Int := 0
/-- Modelled from the spec: the constant `CODEC_FLAG_GLOBAL_HEADER` of the libavcodec
headers (not under src/), the "global header" flag of the codec parameters. -/
def CODEC_FLAG_GLOBAL_HEADER : Nat := 0x00400000
/-- Modelled from the spec: the constant `AVFMT_NOFILE` of the libavformat headers (not
under src/), the "no file handle required" flag of a container. -/
def AVFMT_NOFILE : Nat := 0x0001
/-- Modelled from the spec: the constant `AVFMT_RAWPICTURE` of the libavformat headers
(not under src/), the raw picture passthrough flag of a container. -/
def AVFMT_RAWPICTURE : Nat := 0x0020
/-- Modelled from the spec: the constant `PKT_FLAG_KEY` of the libavformat headers (not
under src/), the key-frame flag of a packet. -/
def PKT_FLAG_KEY : Nat := 0x0001

/-! ## Session data -/

/-- Modelled from the spec: the container descriptor `AVOutputFormat` (declared in
libavformat, not under src/), by the fields the file reads. -/
structure AVOutputFormat where
  name : String
  video_codec : Int
  flags : Nat
deriving DecidableEq

/-- Modelled from the spec: the codec parameters `AVCodecContext` (declared in
libavcodec, not under src/), by the fields the file writes, and whether the
codec is open. -/
structure AVCodecContext where
  codec_id : Int
  codec_type : Int
  bit_rate : Int
  width : Int
  height : Int
  time_base_den : Int
  time_base_num : Int
  gop_size : Int
  pix_fmt : Int
  mb_decision : Int
  flags : Nat
  isOpen : Bool
deriving DecidableEq

/-- Modelled from the spec: the stream record `AVStream` (declared in libavformat,
not under src/): its index in the container and its codec context
(`m_codecContext` is the pointer `m_pAVIFile->codec`). -/
structure AVStream where
  index : Int
  codec : AVCodecContext
deriving DecidableEq

/-- Modelled from the spec: the packet `AVPacket` (declared in libavformat, not
under src/) by the fields `encodeFrame` fills; `data` is the buffer it points
to, named by the size of that allocation (`none` is `NULL`). -/
structure AVPacket where
  flags : Nat
  stream_index : Int
  data : Option Nat
  size : Int
deriving DecidableEq

/-- What has been handed to the container for writing. -/
inductive MuxEvent where
  | header : MuxEvent
  | packet : AVPacket → MuxEvent
  | trailer : MuxEvent
deriving DecidableEq

/-- Modelled from the spec: the container context `AVFormatContext` (declared in
libavformat, not under src/) of a session, together with what was written
through it (`av_write_header`, `av_write_frame`, `av_write_trailer`). -/
structure AVFormatContext where
  oformat : AVOutputFormat
  filename : String
  fileOpen : Bool
  written : List MuxEvent
deriving DecidableEq

/-- The members of `class ffmpegHelper`.  A pointer member is `none` when it
is `NULL` or was never assigned.  `m_videoBuffer` is named by the size of its
allocation; `picture` is the content of the buffer `picture_buf` behind
`m_yuvFrame` (`none`: no buffer, or its bytes are no longer determined because
a copy left its object). -/
structure ffmpegHelper where
  m_status : Int
  m_width : Int
  m_height : Int
  m_bShutdownRequested : Bool
  m_pAVIFile : Option AVStream
  m_videoContext : Option AVFormatContext
  m_videoFormat : Option AVOutputFormat
  m_rgbFrame : Option AVFrame
  m_yuvFrame : Option AVFrame
  m_videoBuffer : Option Nat
  picture : Option (List Byte)
deriving DecidableEq

/-- The constructor `ffmpegHelper()`. -/
def ffmpegHelper.new : ffmpegHelper :=
  { m_status := 0
    m_width := 0
    m_height := 0
    m_bShutdownRequested := false
    m_pAVIFile := none
    m_videoContext := none
    m_videoFormat := none
    m_rgbFrame := none
    m_yuvFrame := none
    m_videoBuffer := none
    picture := none }

/-- A frame as `avcodec_alloc_frame` returns it, before `avpicture_fill`. -/
def blankFrame : AVFrame :=
  { data0 := 0, data1 := 0, data2 := 0, linesize0 := 0, linesize1 := 0, linesize2 := 0 }

/-- Answers of the library calls made by one run of `configure`, in source
order.  A `Bool` tells whether the call returned a non-null pointer. -/
structure ConfigureCalls where
  guess_format_fileName : Option AVOutputFormat
  guess_format_mpeg : Option AVOutputFormat
  av_alloc_format_context : Bool
  av_new_stream : Option AVStream
  av_set_parameters : Int
  avcodec_find_encoder : Bool
  avcodec_open : Int
  malloc_videoBuffer : Bool
  avcodec_alloc_frame_yuv : Bool
  malloc_picture_buf : Bool
  avcodec_alloc_frame_rgb : Bool
  url_fopen : Int

/-- Lines 113-120 of `configure`: the format guessed from the file name, or
else the "mpeg" format. -/
def ConfigureCalls.resolveFormat (lib : ConfigureCalls) : Option AVOutputFormat :=
  match lib.guess_format_fileName with
  | some f => some f
  | none => lib.guess_format_mpeg

/-- The statement `m_status = code; return m_status;`. -/
def ffmpegHelper.fail (self : ffmpegHelper) (code : Int) : Int × ffmpegHelper :=
  (code, { self with m_status := code })

/-- Lines 264-279 of `configure`: open the output file if the format wants
one, write the stream header, record status 0. -/
def ffmpegHelper.configureOutput (self : ffmpegHelper) (lib : ConfigureCalls)
    (videoFormat : AVOutputFormat) (ctx : AVFormatContext) : Int × ffmpegHelper :=
  if videoFormat.flags &&& AVFMT_NOFILE = 0 ∧ lib.url_fopen < 0 then
    self.fail 10
  else
    let ctx1 : AVFormatContext :=
      { ctx with fileOpen := decide (videoFormat.flags &&& AVFMT_NOFILE = 0)
                 written := ctx.written ++ [MuxEvent.header] }
    (0, { self with m_videoContext := some ctx1, m_status := 0 })

/-- Lines 195-262 of `configure`, taken when a stream exists: find and open
the encoder, allocate the output buffer and the two frames.  The fresh picture
buffer is shown zero-filled; `encodeFrame` overwrites it through `img_convert`
before it reads it. -/
def ffmpegHelper.configureCodec (self : ffmpegHelper) (lib : ConfigureCalls)
    (videoFormat : AVOutputFormat) (ctx : AVFormatContext) (stream : AVStream)
    (imageBuffer : Option Nat) : Int × ffmpegHelper :=
  if ¬ lib.avcodec_find_encoder then self.fail 5
  else if lib.avcodec_open < 0 then self.fail 6
  else
    let s1 := { self with
      m_pAVIFile := some { stream with codec := { stream.codec with isOpen := true } }
      m_videoBuffer :=
        if ctx.oformat.flags &&& AVFMT_RAWPICTURE = 0 ∧ lib.malloc_videoBuffer
        then some 200000 else none }
    if ¬ lib.avcodec_alloc_frame_yuv then
      ({ s1 with m_yuvFrame := none }).fail 7
    else if ¬ lib.malloc_picture_buf then
      ({ s1 with m_yuvFrame := some blankFrame }).fail 8
    else
      let size := avpicture_get_size_yuv420p self.m_width self.m_height
      let s2 := { s1 with
        m_yuvFrame := some (avpicture_fill_yuv420p self.m_width self.m_height)
        picture := some (List.replicate size.toNat 0) }
      if ¬ lib.avcodec_alloc_frame_rgb then
        ({ s2 with m_rgbFrame := none }).fail 9
      else
        let s3 := { s2 with
          m_rgbFrame := some
            { data0 := (imageBuffer.getD 0 : Nat), data1 := 0, data2 := 0,
              linesize0 := 3 * self.m_width, linesize1 := 0, linesize2 := 0 } }
        s3.configureOutput lib videoFormat ctx

/-- The method `ffmpegHelper::configure` (source lines 101-280).  The test on
`m_width % 160` only prints a diagnostic and is left out. -/
def ffmpegHelper.configure (self : ffmpegHelper) (lib : ConfigureCalls)
    (fileName : String) (fpsRate width height : Int) (imageBuffer : Option Nat) :
    Int × ffmpegHelper :=
  let s0 := { self with m_width := width, m_height := height }
  let s1 := { s0 with m_videoFormat := lib.resolveFormat }
  match lib.resolveFormat with
  | none => s1.fail 1
  | some videoFormat =>
    if ¬ lib.av_alloc_format_context then
      ({ s1 with m_videoContext := none }).fail 2
    else
      let ctx : AVFormatContext :=
        { oformat := videoFormat, filename := fileName, fileOpen := false, written := [] }
      let s2 := { s1 with m_videoContext := some ctx, m_pAVIFile := none }
      if videoFormat.video_codec ≠ CODEC_ID_NONE then
        match lib.av_new_stream with
        | none => s2.fail 3
        | some st =>
          let c0 : AVCodecContext :=
            { st.codec with
              codec_id := videoFormat.video_codec
              codec_type := CODEC_TYPE_VIDEO
              bit_rate := 7500000
              width := width
              height := height
              time_base_den := fpsRate
              time_base_num := 1
              gop_size := 12
              pix_fmt := PIX_FMT_YUV420P }
          let c1 : AVCodecContext :=
            if c0.codec_id = CODEC_ID_MPEG1VIDEO then { c0 with mb_decision := 2 } else c0
          let c2 : AVCodecContext :=
            if videoFormat.name = "mp4" ∨ videoFormat.name = "mov" ∨
                videoFormat.name = "3gp" then
              { c1 with flags := c1.flags ||| CODEC_FLAG_GLOBAL_HEADER }
            else c1
          let stream : AVStream := { st with codec := c2 }
          let s3 := { s2 with m_pAVIFile := some stream }
          if lib.av_set_parameters < 0 then s3.fail 4
          else s3.configureCodec lib videoFormat ctx stream imageBuffer
      else
        if lib.av_set_parameters < 0 then s2.fail 4
        else s2.configureOutput lib videoFormat ctx

/-- The method `ffmpegHelper::getStatus`. -/
def ffmpegHelper.getStatus (self : ffmpegHelper) : Int := self.m_status

/-- Answers of the library calls made by one run of `encodeFrame`:
`img_convert` by the byte it leaves at each offset of the picture buffer,
`avcodec_encode_video` by its return value and by `coded_frame->key_frame`,
given the output buffer, the capacity passed for it and the frame bytes. -/
structure EncodeCalls where
  img_convert : Nat → Byte
  avcodec_encode_video : Option Nat → Int → Option (List Byte) → Int × Int

/-- Third argument of `avcodec_encode_video` in `encodeFrame`:
`m_width*m_height*30` in `int` arithmetic. -/
def ffmpegHelper.encodeBufSize (self : ffmpegHelper) : Int :=
  toInt32 (toInt32 (self.m_width * self.m_height) * 30)

/-- Lines 318-350 of `encodeFrame`: `img_convert` into the picture buffer,
then the flip.  The result is the new content of the picture buffer and of the
static row buffer `b`; `none` when a frame pointer is not set or a copy of the
flip left its object, after which those bytes are not determined.  The fuel
covers one loop pass per byte of the picture. -/
def ffmpegHelper.convertAndFlip (self : ffmpegHelper) (lib : EncodeCalls)
    (b : Option (List Byte)) : Option PixelState :=
  match self.m_yuvFrame, self.m_rgbFrame, self.picture, b with
  | some yuv, some _, some pic, some rowBuf =>
    flipYUV (pic.length + 1) yuv
      { picture := (List.range pic.length).map lib.img_convert, b := rowBuf }
  | _, _, _, _ => none

/-- The method `ffmpegHelper::encodeFrame` (source lines 303-374).  It takes
and returns the content of the function-static buffer `b` next to the
session. -/
def ffmpegHelper.encodeFrame (self : ffmpegHelper) (lib : EncodeCalls)
    (b : Option (List Byte)) : Int × ffmpegHelper × Option (List Byte) :=
  if self.m_bShutdownRequested then
    (0, { self with m_status := 0 }, b)
  else
    match self.m_pAVIFile with
    | none => (11, { self with m_status := 11 }, b)
    | some stream =>
      let px := self.convertAndFlip lib b
      let pic1 := px.map (fun p => p.picture)
      let r := lib.avcodec_encode_video self.m_videoBuffer self.encodeBufSize pic1
      let out_size := toSizeT (toInt32 r.1)
      let ctx1 :=
        if out_size > 0 then
          let pkt : AVPacket :=
            { flags := if r.2 ≠ 0 then 0 ||| PKT_FLAG_KEY else 0
              stream_index := stream.index
              data := self.m_videoBuffer
              size := toInt32 out_size }
          self.m_videoContext.map fun ctx =>
            { ctx with written := ctx.written ++ [MuxEvent.packet pkt] }
        else self.m_videoContext
      (0, { self with picture := pic1, m_videoContext := ctx1, m_status := 0 },
        px.map (fun p => p.b))

/-- The destructor `~ffmpegHelper()`: the container context as it is when the
trailer has been written and the file closed.  `m_videoContext` and
`m_videoFormat` are dereferenced, and so is `m_yuvFrame` (for `data[0]`) when a
stream exists: the result is `none` when one of these is not set.
`m_rgbFrame` and `m_videoBuffer` are only handed to `av_free` and `free`. -/
def ffmpegHelper.destructor (self : ffmpegHelper) : Option AVFormatContext :=
  match self.m_videoContext, self.m_videoFormat with
  | some ctx, some _ =>
    if self.m_pAVIFile.isSome ∧ self.m_yuvFrame.isNone then none
    else some { ctx with written := ctx.written ++ [MuxEvent.trailer], fileOpen := false }
  | _, _ => none

/-! ## The registry and the C entry points -/

/-- The map `s_ffmpegHelpers` from stream names to session objects. -/
abbrev ffmpegHelpers := String → Option ffmpegHelper

/-- The call `s_ffmpegHelpers.insert( value_type( name, helper ) )`: a
`std::map` keeps the element it already has under an equal key. -/
def ffmpegHelpers.insert (m : ffmpegHelpers) (streamName : String) (helper : ffmpegHelper) :
    ffmpegHelpers :=
  fun k => if k = streamName then
    (match m streamName with
     | some old => some old
     | none => some helper)
  else m k

/-- Replace the object a registered name points to by its new state. -/
def ffmpegHelpers.store (m : ffmpegHelpers) (streamName : String) (helper : ffmpegHelper) :
    ffmpegHelpers :=
  fun k => if k = streamName then some helper else m k

/-- The call `s_ffmpegHelpers.erase( it )` for the element found under the
name. -/
def ffmpegHelpers.erase (m : ffmpegHelpers) (streamName : String) : ffmpegHelpers :=
  fun k => if k = streamName then none else m k

/-- The process-wide state: the registry, the static row buffer `b` of
`encodeFrame`, and the containers of the sessions already destroyed. -/
structure Globals where
  s_ffmpegHelpers : ffmpegHelpers
  b : Option (List Byte)
  finished : List AVFormatContext

/-- State at program start: empty registry, zero-filled `b`. -/
def Globals.start : Globals :=
  { s_ffmpegHelpers := fun _ => none
    b := some (List.replicate ROW_TEMP_SIZE 0)
    finished := [] }

/-- The entry point `initializeStream` (source lines 422-442); a `NULL`
`streamName` or `imageBuffer` is `none`. -/
def initializeStream (g : Globals) (lib : ConfigureCalls) (streamName : Option String)
    (fpsRate width height : Int) (imageBuffer : Option Nat) : Int × Globals :=
  match streamName, imageBuffer with
  | some name, some buf =>
    if fpsRate = 0 ∨ width = 0 ∨ height = 0 then (1, g)
    else
      let r := ffmpegHelper.new.configure lib name fpsRate width height (some buf)
      if r.1 ≠ 0 then (r.1, g)
      else (0, { g with s_ffmpegHelpers := g.s_ffmpegHelpers.insert name r.2 })
  | _, _ => (1, g)

/-- The entry point `encodeFrame` (source lines 444-456).  A `NULL`
`streamName` is `none`: `find( streamName )` then builds its `std::string` key
from a null pointer, which has no result. -/
def encodeFrame (g : Globals) (lib : EncodeCalls) (streamName : Option String) :
    Option (Int × Globals) :=
  match streamName with
  | none => none
  | some name =>
    match g.s_ffmpegHelpers name with
    | none => some (1, g)
    | some helper =>
      let r := helper.encodeFrame lib g.b
      some (0, { g with s_ffmpegHelpers := g.s_ffmpegHelpers.store name r.2.1, b := r.2.2 })

/-- The entry point `shutdownStream` (source lines 458-473).  A `NULL`
`streamName` is `none`: `find( streamName )` then builds its `std::string` key
from a null pointer, which has no result; so has a call whose destructor has
none. -/
def shutdownStream (g : Globals) (streamName : Option String) : Option (Int × Globals) :=
  match streamName with
  | none => none
  | some name =>
    match g.s_ffmpegHelpers name with
    | none => some (1, g)
    | some helper =>
      match helper.destructor with
      | none => none
      | some ctx =>
        some (0, { g with s_ffmpegHelpers := g.s_ffmpegHelpers.erase name
                          finished := g.finished ++ [ctx] })

/-- The entry point `getStatus` (source lines 475-484).  A `NULL` `streamName`
is `none`: `find( streamName )` then builds its `std::string` key from a null
pointer, which has no result. -/
def getStatus (g : Globals) (streamName : Option String) : Option Int :=
  match streamName with
  | none => none
  | some name =>
    match g.s_ffmpegHelpers name with
    | none => some 1
    | some helper => some helper.getStatus

/-- Successive `ffmpegHelper::encodeFrame` calls on one session, one for each
element of `calls`: the session and `b` afterwards, and the statuses the calls
returned, in order. -/
def encodeFrames (self : ffmpegHelper) (b : Option (List Byte)) :
    List EncodeCalls → ffmpegHelper × Option (List Byte) × List Int
  | [] => (self, b, [])
  | lib :: rest =>
    let r := self.encodeFrame lib b
    let t := encodeFrames r.2.1 r.2.2 rest
    (t.1, t.2.1, r.1 :: t.2.2)


/-! ## Sample answers of the library, used to evaluate the model -/

/-- The "mpeg" output format: MPEG-1 video, written to a file. -/
def mpegFormat : AVOutputFormat :=
  { name := "mpeg", video_codec := CODEC_ID_MPEG1VIDEO, flags := 0 }

/-- An output format without a video codec (an audio-only container). -/
def wavFormat : AVOutputFormat :=
  { name := "wav", video_codec := CODEC_ID_NONE, flags := 0 }

/-- A zeroed codec context, as a new stream carries it. -/
def blankCodecContext : AVCodecContext :=
  { codec_id := 0, codec_type := 0, bit_rate := 0, width := 0, height := 0,
    time_base_den := 0, time_base_num := 0, gop_size := 0, pix_fmt := 0,
    mb_decision := 0, flags := 0, isOpen := false }

/-- Every library call of `configure` succeeds and the file name resolves to
the given format. -/
def callsOk (fmt : AVOutputFormat) : ConfigureCalls :=
  { guess_format_fileName := some fmt
    guess_format_mpeg := some mpegFormat
    av_alloc_format_context := true
    av_new_stream := some { index := 0, codec := blankCodecContext }
    av_set_parameters := 0
    avcodec_find_encoder := true
    avcodec_open := 0
    malloc_videoBuffer := true
    avcodec_alloc_frame_yuv := true
    malloc_picture_buf := true
    avcodec_alloc_frame_rgb := true
    url_fopen := 0 }

/-- An encoder that buffers the frame (returns 0). -/
def bufferingEncoder : EncodeCalls :=
  { img_convert := fun _ => 0
    avcodec_encode_video := fun _ _ _ => (0, 0) }


/-- The process state after `initializeStream( "a", 25, 4, 2, buffer )` with
every library call succeeding on the "mpeg" format. -/
def oneSession : Globals :=
  (initializeStream Globals.start (callsOk mpegFormat) (some "a") 25 4 2 (some 0)).2

/-- The state `shutdownStream( "a" )` leaves when started from `oneSession`. -/
def oneSessionClosed : Globals :=
  match shutdownStream oneSession (some "a") with
  | some r => r.2
  | none => oneSession

/-- The session `configure( "out.mpg", 25, 320, 240, buffer )` sets up when
every library call succeeds on the "mpeg" format. -/
def mpegSession : ffmpegHelper :=
  (ffmpegHelper.new.configure (callsOk mpegFormat) "out.mpg" 25 320 240 (some 0)).2

/-- The session `configure( "out.wav", 25, 320, 240, buffer )` sets up when
every library call succeeds and the format has no video codec. -/
def wavSession : ffmpegHelper :=
  (ffmpegHelper.new.configure (callsOk wavFormat) "out.wav" 25 320 240 (some 0)).2

/-- An encoder that returns 1500 bytes of a key frame. -/
def keyFrameEncoder : EncodeCalls :=
  { img_convert := fun _ => 0
    avcodec_encode_video := fun _ _ _ => (1500, 1) }

/-- An encoder that reports as its output size the capacity it was given. -/
def capacityProbe : EncodeCalls :=
  { img_convert := fun _ => 0
    avcodec_encode_video := fun _ capacity _ => (capacity, 0) }

/-- The container context of `mpegSession` as `configure` leaves it. -/
def mpegContext : AVFormatContext :=
  { oformat := mpegFormat, filename := "out.mpg", fileOpen := true,
    written := [MuxEvent.header] }

/-! ## The flip: row reversal inside each plane -/

theorem readBytes_mid (pre x post : List Byte) (p n : Int)
    (hp : p = pre.length) (hn : n = x.length) :
    readBytes (pre ++ x ++ post) p n = some x := by
  subst hp hn
  have h : (0:Int) ≤ pre.length ∧ (0:Int) ≤ x.length ∧
      (pre.length : Int) + x.length ≤ ((pre ++ x ++ post).length : Int) := by
    refine ⟨by omega, by omega, ?_⟩
    simp only [List.length_append]; push_cast; omega
  rw [readBytes, if_pos h]
  simp only [Int.toNat_ofNat, List.append_assoc]
  rw [List.drop_left' rfl, List.take_left' rfl]

theorem writeBytes_mid (pre x post y : List Byte) (p : Int)
    (hp : p = pre.length) (hy : y.length = x.length) :
    writeBytes (pre ++ x ++ post) p y = some (pre ++ y ++ post) := by
  subst hp
  have h : (0:Int) ≤ pre.length ∧
      (pre.length : Int) + y.length ≤ ((pre ++ x ++ post).length : Int) := by
    refine ⟨by omega, ?_⟩
    simp only [List.length_append]; push_cast; omega
  rw [writeBytes, if_pos h]
  simp only [Int.toNat_ofNat, List.append_assoc]
  rw [List.take_left' rfl, hy, ← List.append_assoc pre x post,
    List.drop_left' (by simp)]

theorem swapRows_mid (pre x mid y post b : List Byte) (n s d : Int)
    (hx : n = x.length) (hy : y.length = x.length) (hb : x.length ≤ b.length)
    (hs : s = pre.length) (hd : d = pre.length + x.length + mid.length) :
    swapRows n s d { picture := pre ++ x ++ mid ++ y ++ post, b := b } =
      some { picture := pre ++ y ++ mid ++ x ++ post, b := x ++ b.drop x.length } := by
  have e1 : memcpy b 0 (pre ++ x ++ mid ++ y ++ post) s n = some (x ++ b.drop x.length) := by
    have r := readBytes_mid pre x (mid ++ y ++ post) s n hs hx
    simp only [List.append_assoc] at r
    simp only [memcpy, List.append_assoc, r, Option.some_bind]
    have w := writeBytes_mid [] (b.take x.length) (b.drop x.length) x 0 (by simp)
      (by simp [List.length_take, hb])
    simpa using w
  have e2 : memcpySame (pre ++ x ++ mid ++ y ++ post) s d n =
      some (pre ++ y ++ mid ++ y ++ post) := by
    have hc : s + n ≤ d ∨ d + n ≤ s := by left; omega
    have r := readBytes_mid (pre ++ x ++ mid) y post d n
      (by simp only [List.length_append]; push_cast; omega) (by omega)
    have w := writeBytes_mid pre x (mid ++ y ++ post) y s hs hy
    simp only [List.append_assoc] at r w
    simp only [memcpySame, if_pos hc, memcpy, List.append_assoc, r, Option.some_bind, w]
  have e3 : memcpy (pre ++ y ++ mid ++ y ++ post) d (x ++ b.drop x.length) 0 n =
      some (pre ++ y ++ mid ++ x ++ post) := by
    have r := readBytes_mid [] x (b.drop x.length) 0 n (by simp) hx
    have w := writeBytes_mid (pre ++ y ++ mid) y post x d
      (by simp only [List.length_append]; push_cast; omega) hy.symm
    simp only [List.nil_append, List.append_assoc] at r w
    simp only [memcpy, List.append_assoc, r, Option.some_bind, w]
  simp only [swapRows, e1, e2, e3, Option.some_bind]


theorem length_flatten_rows (rows : List (List Byte)) (n : Nat)
    (h : ∀ r ∈ rows, r.length = n) : rows.flatten.length = rows.length * n := by
  induction rows with
  | nil => simp
  | cons x xs ih =>
    have hx : x.length = n := h x (List.mem_cons_self _ _)
    have hxs : ∀ r ∈ xs, r.length = n := fun r hr => h r (List.mem_cons_of_mem _ hr)
    simp only [List.flatten_cons, List.length_append, List.length_cons, ih hxs, hx]
    ring

theorem flatten_rows_zero (rows : List (List Byte))
    (h : ∀ r ∈ rows, r.length = 0) : rows.flatten = [] := by
  have := length_flatten_rows rows 0 h
  exact List.length_eq_zero.mp (by simpa using this)

theorem flipLoop_done (fuel : Nat) (n s d : Int) (st : PixelState) (h : ¬ s < d) :
    flipLoop fuel n s d st = some st := by
  cases fuel <;> simp [flipLoop, h]

theorem flipLoop_rows (fuel : Nat) :
    ∀ (rows : List (List Byte)) (pre post b : List Byte) (n : Nat),
      (∀ r ∈ rows, r.length = n) → n ≤ b.length → rows.length ≤ 2 * fuel + 1 →
      ∃ b1, b1.length = b.length ∧
        flipLoop fuel n pre.length (pre.length + ((rows.length : Int) - 1) * n)
          { picture := pre ++ rows.flatten ++ post, b := b } =
        some { picture := pre ++ rows.reverse.flatten ++ post, b := b1 } := by
  induction fuel with
  | zero =>
    intro rows pre post b n hrows hb hlen
    refine ⟨b, rfl, ?_⟩
    match rows, hlen with
    | [], _ =>
      rw [flipLoop_done]
      · simp
      · simp only [List.length_nil]; push_cast
        have : (0:Int) ≤ n := by omega
        nlinarith
    | [x], _ =>
      rw [flipLoop_done]
      · simp
      · simp
    | _ :: _ :: _, hl => simp at hl
  | succ fuel ih =>
    intro rows pre post b n hrows hb hlen
    rcases rows with _ | ⟨x, tl⟩
    · refine ⟨b, rfl, ?_⟩
      rw [flipLoop_done]
      · simp
      · simp only [List.length_nil]; push_cast
        have : (0:Int) ≤ n := by omega
        nlinarith
    rcases List.eq_nil_or_concat tl with rfl | ⟨mid, y, rfl⟩
    · refine ⟨b, rfl, ?_⟩
      rw [flipLoop_done]
      · simp
      · simp
    have hx : x.length = n := hrows x (by simp)
    have hy : y.length = n := hrows y (by simp)
    have hmid : ∀ r ∈ mid, r.length = n := fun r hr => hrows r (by simp [hr])
    have hml := length_flatten_rows mid n hmid
    rcases Nat.eq_zero_or_pos n with hn0 | hnpos
    · subst hn0
      refine ⟨b, rfl, ?_⟩
      rw [flipLoop_done]
      · rw [flatten_rows_zero _ hrows, flatten_rows_zero]
        intro r hr
        exact hrows r (List.mem_reverse.mp hr)
      · simp
    have hl2 : (x :: mid.concat y).length = mid.length + 2 := by simp
    have hd : (pre.length : Int) + (((x :: mid.concat y).length : Int) - 1) * n =
        pre.length + x.length + mid.flatten.length := by
      rw [hml, hx, hl2]; push_cast; ring
    have hlt : (pre.length : Int) <
        pre.length + (((x :: mid.concat y).length : Int) - 1) * n := by
      rw [hd]; omega
    have hpic : pre ++ (x :: mid.concat y).flatten ++ post =
        pre ++ x ++ mid.flatten ++ y ++ post := by
      simp [List.flatten_append]
    have hsw := swapRows_mid pre x mid.flatten y post b n pre.length
      (pre.length + (((x :: mid.concat y).length : Int) - 1) * n)
      (by rw [hx]) (by rw [hx, hy]) (by omega) rfl hd
    obtain ⟨b1, hb1, hrec⟩ := ih mid (pre ++ y) (x ++ post) (x ++ b.drop x.length) n hmid
      (by simp only [List.length_append, List.length_drop]; omega)
      (by rw [hl2] at hlen; omega)
    refine ⟨b1, ?_, ?_⟩
    · rw [hb1]; simp only [List.length_append, List.length_drop]; omega
    · rw [flipLoop, if_pos hlt, hpic, hsw, Option.some_bind]
      have e1 : (pre.length : Int) + n = ((pre ++ y).length : Int) := by
        simp only [List.length_append, hy]; push_cast; ring
      have e2 : (pre.length : Int) + (((x :: mid.concat y).length : Int) - 1) * n - n =
          ((pre ++ y).length : Int) + ((mid.length : Int) - 1) * n := by
        rw [hl2, List.length_append, hy]; push_cast; ring
      rw [e1, e2]
      have e3 : pre ++ y ++ mid.flatten ++ x ++ post =
          pre ++ y ++ mid.flatten ++ (x ++ post) := by simp
      have e4 : pre ++ (x :: mid.concat y).reverse.flatten ++ post =
          pre ++ y ++ mid.reverse.flatten ++ (x ++ post) := by
        simp [List.flatten_append, List.reverse_append]
      rw [e3, e4]
      exact hrec


theorem rowsOf_length (n k : Nat) (l : List Byte) : (rowsOf n k l).length = k := by
  induction k generalizing l with
  | zero => rfl
  | succ k ih => simp [rowsOf, ih]

theorem rowsOf_row_length (n k : Nat) (l : List Byte) (h : k * n ≤ l.length) :
    ∀ r ∈ rowsOf n k l, r.length = n := by
  induction k generalizing l with
  | zero => intro r hr; simp [rowsOf] at hr
  | succ k ih =>
    have hk : (k + 1) * n = k * n + n := by ring
    intro r hr
    simp only [rowsOf, List.mem_cons] at hr
    rcases hr with rfl | hr
    · simp only [List.length_take]; omega
    · exact ih (l.drop n) (by simp only [List.length_drop]; omega) r hr

theorem rowsOf_flatten (n k : Nat) (l : List Byte) :
    (rowsOf n k l).flatten = l.take (k * n) := by
  induction k generalizing l with
  | zero => simp [rowsOf]
  | succ k ih =>
    have hk : (k + 1) * n = n + k * n := by ring
    simp only [rowsOf, List.flatten_cons, ih, hk, List.take_add]

theorem planeRow_rows (rows : List (List Byte)) (n : Nat)
    (h : ∀ r ∈ rows, r.length = n) :
    ∀ (pre post : List Byte) (i : Nat), i < rows.length →
      rows[i]? = some (planeRow (pre ++ rows.flatten ++ post) pre.length n i) := by
  induction rows with
  | nil => intro pre post i hi; simp at hi
  | cons x xs ih =>
    have hx : x.length = n := h x (List.mem_cons_self _ _)
    have hxs : ∀ r ∈ xs, r.length = n := fun r hr => h r (List.mem_cons_of_mem _ hr)
    intro pre post i hi
    cases i with
    | zero =>
      simp only [planeRow, List.getElem?_cons_zero, Nat.zero_mul, Nat.add_zero,
        List.flatten_cons, List.append_assoc]
      rw [List.drop_left' rfl, List.take_left' hx]
    | succ i =>
      have hi2 : i < xs.length := by simpa using hi
      have e := ih hxs (pre ++ x) post i hi2
      have hp : pre ++ (x :: xs).flatten ++ post = pre ++ x ++ xs.flatten ++ post := by simp
      have hbase : pre.length + (i + 1) * n = (pre ++ x).length + i * n := by
        rw [List.length_append, hx]; ring
      rw [List.getElem?_cons_succ, e]
      simp only [planeRow, hp, hbase]


theorem flipYUV_rows (Y U V : List (List Byte)) (n0 n1 : Nat) (f : AVFrame)
    (b : List Byte) (fuel : Nat)
    (hY : ∀ r ∈ Y, r.length = n0) (hU : ∀ r ∈ U, r.length = n1)
    (hV : ∀ r ∈ V, r.length = n1) (hUV : U.length = V.length)
    (len : Nat) (hL : PlanarLayout f len Y.length U.length)
    (h0 : f.linesize0 = n0) (h1 : f.linesize1 = n1)
    (hb0 : n0 ≤ b.length) (hb1 : n1 ≤ b.length)
    (hf0 : Y.length ≤ 2 * fuel + 1) (hf1 : U.length ≤ 2 * fuel + 1) :
    ∃ b1, b1.length = b.length ∧
      flipYUV fuel f { picture := Y.flatten ++ U.flatten ++ V.flatten, b := b } =
        some { picture := Y.reverse.flatten ++ U.reverse.flatten ++ V.reverse.flatten,
               b := b1 } := by
  have h2 : f.linesize2 = n1 := by rw [← hL.strides_eq, h1]
  have hYr : ∀ r ∈ Y.reverse, r.length = n0 := fun r hr => hY r (List.mem_reverse.mp hr)
  have hUr : ∀ r ∈ U.reverse, r.length = n1 := fun r hr => hU r (List.mem_reverse.mp hr)
  have lY := length_flatten_rows _ _ hYr
  have lU := length_flatten_rows _ _ hUr
  simp only [List.length_reverse] at lY lU
  have d0 := hL.data0_eq
  have d1 : f.data1 = (Y.length : Int) * n0 := by rw [hL.data1_eq, d0, h0]; ring
  have d2 : f.data2 = (Y.length : Int) * n0 + (U.length : Int) * n1 := by
    rw [hL.data2_eq, d1, h1]
  obtain ⟨b1, hb1l, e1⟩ := flipLoop_rows fuel Y [] (U.flatten ++ V.flatten) b n0 hY hb0 hf0
  obtain ⟨b2, hb2l, e2⟩ := flipLoop_rows fuel U Y.reverse.flatten V.flatten b1 n1 hU
    (by omega) hf1
  obtain ⟨b3, hb3l, e3⟩ := flipLoop_rows fuel V (Y.reverse.flatten ++ U.reverse.flatten) []
    b2 n1 hV (by omega) (by omega)
  refine ⟨b3, by omega, ?_⟩
  have a1 : f.data1 - f.linesize0 = (([] : List Byte).length : Int) +
      ((Y.length : Int) - 1) * n0 := by
    rw [d1, h0]; simp only [List.length_nil]; push_cast; ring
  have a2 : f.data2 - f.linesize2 = (Y.reverse.flatten.length : Int) +
      ((U.length : Int) - 1) * n1 := by
    rw [d2, h2, lY]; push_cast; ring
  have a3 : f.data2 + (f.data2 - f.data1 - f.linesize2) =
      ((Y.reverse.flatten ++ U.reverse.flatten).length : Int) +
        ((V.length : Int) - 1) * n1 := by
    rw [d2, d1, h2, List.length_append, lY, lU, ← hUV]; push_cast; ring
  have s1 : f.data0 = (([] : List Byte).length : Int) := by rw [d0]; rfl
  have s2 : f.data1 = (Y.reverse.flatten.length : Int) := by rw [d1, lY]; push_cast; ring
  have s3 : f.data2 = ((Y.reverse.flatten ++ U.reverse.flatten).length : Int) := by
    rw [d2, List.length_append, lY, lU]; push_cast; ring
  simp only [List.nil_append, List.append_nil, List.append_assoc] at e1 e2 e3
  unfold flipYUV
  rw [a1, a2, a3, h0, h1, h2]
  nth_rewrite 1 [s1]
  nth_rewrite 1 [s2]
  rw [s3]
  simp only [List.append_assoc]
  rw [e1, Option.some_bind, e2, Option.some_bind, e3]


theorem split_three (l : List Byte) (a c d : Nat) (h : l.length = a + c + d) :
    l = l.take a ++ (l.drop a).take c ++ (l.drop (a + c)).take d := by
  have h3 : (l.drop (a + c)).take d = l.drop (a + c) :=
    List.take_of_length_le (by simp only [List.length_drop]; omega)
  have h4 : l.drop (a + c) = (l.drop a).drop c := by
    rw [List.drop_drop, Nat.add_comm]
  rw [h3, List.append_assoc, h4, List.take_append_drop, List.take_append_drop]

theorem picture_planes (picture : List Byte) (n0 rows n1 chromaRows : Nat)
    (h : picture.length = rows * n0 + chromaRows * n1 + chromaRows * n1) :
    picture = (lumaRows picture n0 rows).flatten ++
      (cbRows picture n0 rows n1 chromaRows).flatten ++
      (crRows picture n0 rows n1 chromaRows).flatten := by
  simp only [lumaRows, cbRows, crRows, rowsOf_flatten]
  exact split_three picture _ _ _ h

theorem layout_length (f : AVFrame) (len rows chromaRows : Nat)
    (hL : PlanarLayout f len rows chromaRows) :
    f.linesize0 = (f.linesize0.toNat : Int) ∧ f.linesize1 = (f.linesize1.toNat : Int) ∧
    len = rows * f.linesize0.toNat + chromaRows * f.linesize1.toNat +
      chromaRows * f.linesize1.toNat := by
  have e0 : f.linesize0 = (f.linesize0.toNat : Int) := (Int.toNat_of_nonneg hL.stride0_nonneg).symm
  have e1 : f.linesize1 = (f.linesize1.toNat : Int) := (Int.toNat_of_nonneg hL.stride1_nonneg).symm
  refine ⟨e0, e1, ?_⟩
  have h := hL.len_eq
  rw [hL.data2_eq, hL.data1_eq, hL.data0_eq, ← hL.strides_eq] at h
  generalize f.linesize0.toNat = n0 at e0 ⊢
  generalize f.linesize1.toNat = n1 at e1 ⊢
  rw [e0, e1] at h
  have h2 : (len : Int) = ((rows * n0 + chromaRows * n1 + chromaRows * n1 : Nat) : Int) := by
    rw [h]; push_cast; ring
  exact_mod_cast h2

theorem flipYUV_layout (f : AVFrame) (picture b : List Byte) (rows chromaRows fuel : Nat)
    (hL : PlanarLayout f picture.length rows chromaRows)
    (hb0 : f.linesize0 ≤ b.length) (hb1 : f.linesize1 ≤ b.length)
    (hf0 : rows / 2 ≤ fuel) (hf1 : chromaRows / 2 ≤ fuel) :
    ∃ b1, b1.length = b.length ∧
      flipYUV fuel f { picture := picture, b := b } =
        some { picture :=
                (lumaRows picture f.linesize0.toNat rows).reverse.flatten ++
                (cbRows picture f.linesize0.toNat rows f.linesize1.toNat
                  chromaRows).reverse.flatten ++
                (crRows picture f.linesize0.toNat rows f.linesize1.toNat
                  chromaRows).reverse.flatten,
               b := b1 } := by
  obtain ⟨e0, e1, hlen⟩ := layout_length f _ _ _ hL
  have hp := picture_planes picture _ _ _ _ hlen
  have hk : chromaRows * f.linesize1.toNat ≤
      (picture.drop (rows * f.linesize0.toNat)).length := by
    simp only [List.length_drop]; omega
  have hk2 : chromaRows * f.linesize1.toNat ≤ (picture.drop
      (rows * f.linesize0.toNat + chromaRows * f.linesize1.toNat)).length := by
    simp only [List.length_drop]; omega
  have hY := rowsOf_row_length f.linesize0.toNat rows picture (by omega)
  have hU := rowsOf_row_length f.linesize1.toNat chromaRows _ hk
  have hV := rowsOf_row_length f.linesize1.toNat chromaRows _ hk2
  have key := flipYUV_rows (lumaRows picture f.linesize0.toNat rows)
    (cbRows picture f.linesize0.toNat rows f.linesize1.toNat chromaRows)
    (crRows picture f.linesize0.toNat rows f.linesize1.toNat chromaRows)
    f.linesize0.toNat f.linesize1.toNat f b fuel hY hU hV
    (by simp [cbRows, crRows, rowsOf_length]) picture.length
    (by simpa [lumaRows, cbRows, rowsOf_length] using hL) e0 e1
    (by omega) (by omega)
    (by simp only [lumaRows, rowsOf_length]; omega)
    (by simp only [cbRows, rowsOf_length]; omega)
  rw [← hp] at key
  exact key


theorem planeRow_reverse (rows : List (List Byte)) (n : Nat)
    (h : ∀ r ∈ rows, r.length = n) (pre post : List Byte) (i : Nat) (hi : i < rows.length) :
    planeRow (pre ++ rows.reverse.flatten ++ post) pre.length n i =
      planeRow (pre ++ rows.flatten ++ post) pre.length n (rows.length - 1 - i) := by
  have hr : ∀ r ∈ rows.reverse, r.length = n := fun r hr => h r (List.mem_reverse.mp hr)
  have e1 := planeRow_rows rows.reverse n hr pre post i (by simpa using hi)
  have e2 := planeRow_rows rows n h pre post (rows.length - 1 - i) (by omega)
  rw [List.getElem?_reverse hi, e2] at e1
  exact (Option.some.inj e1).symm

theorem flipYUV_spec (f : AVFrame) (picture b : List Byte) (rows chromaRows fuel : Nat)
    (hL : PlanarLayout f picture.length rows chromaRows)
    (hb0 : f.linesize0 ≤ b.length) (hb1 : f.linesize1 ≤ b.length)
    (hf0 : rows / 2 ≤ fuel) (hf1 : chromaRows / 2 ≤ fuel) :
    ∃ st, flipYUV fuel f { picture := picture, b := b } = some st ∧
      st.b.length = b.length ∧ st.picture.length = picture.length ∧
      (∀ r, r < rows → planeRow st.picture 0 f.linesize0.toNat r =
        planeRow picture 0 f.linesize0.toNat (rows - 1 - r)) ∧
      (∀ r, r < chromaRows →
        planeRow st.picture (rows * f.linesize0.toNat) f.linesize1.toNat r =
        planeRow picture (rows * f.linesize0.toNat) f.linesize1.toNat
          (chromaRows - 1 - r)) ∧
      (∀ r, r < chromaRows →
        planeRow st.picture (rows * f.linesize0.toNat + chromaRows * f.linesize1.toNat)
          f.linesize1.toNat r =
        planeRow picture (rows * f.linesize0.toNat + chromaRows * f.linesize1.toNat)
          f.linesize1.toNat (chromaRows - 1 - r)) := by
  obtain ⟨e0, e1, hlen⟩ := layout_length f _ _ _ hL
  obtain ⟨b1, hb1l, hflip⟩ := flipYUV_layout f picture b rows chromaRows fuel hL hb0 hb1 hf0 hf1
  generalize hn0 : f.linesize0.toNat = n0 at *
  generalize hn1 : f.linesize1.toNat = n1 at *
  have hp := picture_planes picture n0 rows n1 chromaRows hlen
  generalize hYd : lumaRows picture n0 rows = Y at *
  generalize hUd : cbRows picture n0 rows n1 chromaRows = U at *
  generalize hVd : crRows picture n0 rows n1 chromaRows = V at *
  have lYn : Y.length = rows := by rw [← hYd]; exact rowsOf_length _ _ _
  have lUn : U.length = chromaRows := by rw [← hUd]; exact rowsOf_length _ _ _
  have lVn : V.length = chromaRows := by rw [← hVd]; exact rowsOf_length _ _ _
  have hY : ∀ r ∈ Y, r.length = n0 := by
    rw [← hYd]; exact rowsOf_row_length n0 rows picture (by omega)
  have hU : ∀ r ∈ U, r.length = n1 := by
    rw [← hUd]; exact rowsOf_row_length n1 chromaRows _ (by simp only [List.length_drop]; omega)
  have hV : ∀ r ∈ V, r.length = n1 := by
    rw [← hVd]; exact rowsOf_row_length n1 chromaRows _ (by simp only [List.length_drop]; omega)
  have hYr : ∀ r ∈ Y.reverse, r.length = n0 := fun r hr => hY r (List.mem_reverse.mp hr)
  have hUr : ∀ r ∈ U.reverse, r.length = n1 := fun r hr => hU r (List.mem_reverse.mp hr)
  have fY := length_flatten_rows Y n0 hY
  have fU := length_flatten_rows U n1 hU
  have fYr := length_flatten_rows _ n0 hYr
  have fUr := length_flatten_rows _ n1 hUr
  simp only [List.length_reverse] at fYr fUr
  refine ⟨_, hflip, hb1l, ?_, ?_, ?_, ?_⟩
  · have fV := length_flatten_rows V n1 hV
    have hVr : ∀ r ∈ V.reverse, r.length = n1 := fun r hr => hV r (List.mem_reverse.mp hr)
    have fVr := length_flatten_rows _ n1 hVr
    simp only [List.length_reverse] at fVr
    simp only [List.length_append, fYr, fUr, fVr]
    rw [hlen, lYn, lUn, lVn]
  · intro r hr
    have h2 := planeRow_rows Y.reverse n0 hYr [] (U.reverse.flatten ++ V.reverse.flatten) r
      (by simp only [List.length_reverse]; omega)
    have h3 := planeRow_rows Y n0 hY [] (U.flatten ++ V.flatten) (rows - 1 - r) (by omega)
    rw [List.getElem?_reverse (by omega), lYn, h3] at h2
    simp only [List.nil_append, List.length_nil, ← List.append_assoc] at h2
    rw [← hp] at h2
    exact (Option.some.inj h2).symm
  · intro r hr
    have h2 := planeRow_rows U.reverse n1 hUr Y.reverse.flatten V.reverse.flatten r
      (by simp only [List.length_reverse]; omega)
    have h3 := planeRow_rows U n1 hU Y.flatten V.flatten (chromaRows - 1 - r) (by omega)
    rw [List.getElem?_reverse (by omega), lUn, h3, fYr, fY, lYn] at h2
    rw [← hp] at h2
    exact (Option.some.inj h2).symm
  · intro r hr
    have h2 := planeRow_rows V.reverse n1
      (fun r hr => hV r (List.mem_reverse.mp hr)) (Y.reverse.flatten ++ U.reverse.flatten) [] r
      (by simp only [List.length_reverse]; omega)
    have h3 := planeRow_rows V n1 hV (Y.flatten ++ U.flatten) [] (chromaRows - 1 - r) (by omega)
    rw [List.getElem?_reverse (by omega), lVn, h3] at h2
    simp only [List.length_append, fYr, fUr, fY, fU, lYn, lUn, List.append_nil,
      ← List.append_assoc] at h2
    rw [← hp] at h2
    exact (Option.some.inj h2).symm

theorem flipYUV_twice (f : AVFrame) (picture b : List Byte) (rows chromaRows fuel : Nat)
    (hL : PlanarLayout f picture.length rows chromaRows)
    (hb0 : f.linesize0 ≤ b.length) (hb1 : f.linesize1 ≤ b.length)
    (hf0 : rows / 2 ≤ fuel) (hf1 : chromaRows / 2 ≤ fuel) :
    ∃ st1 st2, flipYUV fuel f { picture := picture, b := b } = some st1 ∧
      flipYUV fuel f st1 = some st2 ∧ st2.picture = picture := by
  obtain ⟨e0, e1, hlen⟩ := layout_length f _ _ _ hL
  obtain ⟨b1, hb1l, hflip⟩ := flipYUV_layout f picture b rows chromaRows fuel hL hb0 hb1 hf0 hf1
  generalize hn0 : f.linesize0.toNat = n0 at *
  generalize hn1 : f.linesize1.toNat = n1 at *
  have hp := picture_planes picture n0 rows n1 chromaRows hlen
  generalize hYd : lumaRows picture n0 rows = Y at *
  generalize hUd : cbRows picture n0 rows n1 chromaRows = U at *
  generalize hVd : crRows picture n0 rows n1 chromaRows = V at *
  have lYn : Y.length = rows := by rw [← hYd]; exact rowsOf_length _ _ _
  have lUn : U.length = chromaRows := by rw [← hUd]; exact rowsOf_length _ _ _
  have lVn : V.length = chromaRows := by rw [← hVd]; exact rowsOf_length _ _ _
  have hY : ∀ r ∈ Y, r.length = n0 := by
    rw [← hYd]; exact rowsOf_row_length n0 rows picture (by omega)
  have hU : ∀ r ∈ U, r.length = n1 := by
    rw [← hUd]; exact rowsOf_row_length n1 chromaRows _ (by simp only [List.length_drop]; omega)
  have hV : ∀ r ∈ V, r.length = n1 := by
    rw [← hVd]; exact rowsOf_row_length n1 chromaRows _ (by simp only [List.length_drop]; omega)
  obtain ⟨b2, _, hflip2⟩ := flipYUV_rows Y.reverse U.reverse V.reverse n0 n1 f b1 fuel
    (fun r hr => hY r (List.mem_reverse.mp hr)) (fun r hr => hU r (List.mem_reverse.mp hr))
    (fun r hr => hV r (List.mem_reverse.mp hr))
    (by simp only [List.length_reverse]; omega) picture.length
    (by simpa only [List.length_reverse, lYn, lUn] using hL) e0 e1
    (by omega) (by omega)
    (by simp only [List.length_reverse]; omega) (by simp only [List.length_reverse]; omega)
  refine ⟨_, _, hflip, hflip2, ?_⟩
  simp only [List.reverse_reverse]
  exact hp.symm


theorem yuv420p_layout (w h len : Nat)
    (hlen : (len : Int) = avpicture_get_size_yuv420p w h) :
    PlanarLayout (avpicture_fill_yuv420p w h) len h ((h + 1) / 2) := by
  have c1 : (((h + 1) / 2 : Nat) : Int) = ((h : Int) + 1) / 2 := by push_cast; rfl
  constructor
  · rfl
  · simp [avpicture_fill_yuv420p]
  · simp only [avpicture_fill_yuv420p]; omega
  · rfl
  · simp only [avpicture_fill_yuv420p]; ring
  · simp only [avpicture_fill_yuv420p, c1]; ring
  · simp only [avpicture_fill_yuv420p, c1, hlen, avpicture_get_size_yuv420p]; ring

/-- C1: on a frame buffer laid out as three back-to-back planes with equal
chroma strides and every stride at most 24000, running the orientation
correction of `encodeFrame` twice (with fuel for the row pairs of each plane)
succeeds both times and gives back exactly the bytes it started from. -/
theorem flip_twice_restores_frame (f : AVFrame) (picture b : List Byte)
    (rows chromaRows fuel : Nat)
    (hL : PlanarLayout f picture.length rows chromaRows)
    (h0 : f.linesize0 ≤ 24000) (h1 : f.linesize1 ≤ 24000)
    (hb : b.length = ROW_TEMP_SIZE)
    (hf0 : rows / 2 ≤ fuel) (hf1 : chromaRows / 2 ≤ fuel) :
    ∃ st1 st2, flipYUV fuel f { picture := picture, b := b } = some st1 ∧
      flipYUV fuel f st1 = some st2 ∧ st2.picture = picture := by
  have hb0 : f.linesize0 ≤ b.length := by rw [hb, ROW_TEMP_SIZE]; exact_mod_cast h0
  have hb1 : f.linesize1 ≤ b.length := by rw [hb, ROW_TEMP_SIZE]; exact_mod_cast h1
  exact flipYUV_twice f picture b rows chromaRows fuel hL hb0 hb1 hf0 hf1

/-- C1 witness: the 2 x 3 picture of ten bytes. -/
theorem flip_twice_restores_frame_witness :
    ∃ st1 st2,
      flipYUV 1 (avpicture_fill_yuv420p 2 3)
        { picture := [1, 2, 3, 4, 5, 6, 7, 8, 9, 10], b := List.replicate 24000 0 } =
          some st1 ∧
      flipYUV 1 (avpicture_fill_yuv420p 2 3) st1 = some st2 ∧
      st2.picture = [1, 2, 3, 4, 5, 6, 7, 8, 9, 10] :=
  flip_twice_restores_frame (avpicture_fill_yuv420p 2 3) [1, 2, 3, 4, 5, 6, 7, 8, 9, 10]
    (List.replicate 24000 0) 3 2 1
    (yuv420p_layout 2 3 10 (by decide)) (by decide) (by decide)
    (List.length_replicate _ _) (by decide) (by decide)

theorem memcpy_overflow (dst src : List Byte) (sp n : Int) (hn : (dst.length : Int) < n) :
    memcpy dst 0 src sp n = none := by
  unfold memcpy readBytes
  split
  · rename_i hc
    obtain ⟨hp, hn0, hle⟩ := hc
    have hl : ((src.drop sp.toNat).take n.toNat).length = n.toNat := by
      simp only [List.length_take, List.length_drop]; omega
    have : ¬ ((0:Int) ≤ 0 ∧ (0:Int) + (((src.drop sp.toNat).take n.toNat).length : Int)
        ≤ dst.length) := by
      rw [hl]; omega
    simp only [Option.some_bind, writeBytes, if_neg this]
  · rfl

theorem swapRows_overflow (n s d : Int) (st : PixelState) (hn : (st.b.length : Int) < n) :
    swapRows n s d st = none := by
  simp only [swapRows, memcpy_overflow st.b st.picture s n hn, Option.none_bind]

theorem flipYUV_overflow (w h : Nat) (picture b : List Byte) (fuel : Nat)
    (hw : b.length < w) (hh : 2 ≤ h) :
    flipYUV fuel (avpicture_fill_yuv420p w h) { picture := picture, b := b } = none := by
  have hlt : (0 : Int) < (w : Int) * h - w := by
    have h1 : (0 : Int) < w := by omega
    have h2 : (2 : Int) ≤ h := by exact_mod_cast hh
    nlinarith
  have hsw := swapRows_overflow (w : Int) 0 ((w : Int) * h - w)
    { picture := picture, b := b } (by exact_mod_cast hw)
  cases fuel with
  | zero => simp only [flipYUV, avpicture_fill_yuv420p, flipLoop, if_pos hlt, Option.none_bind]
  | succ n =>
    simp only [flipYUV, avpicture_fill_yuv420p, flipLoop, if_pos hlt, hsw, Option.none_bind]

/-- C2: for width 24001 and height 2 the buffer `configure` lays out has 72004
bytes and the luma loop is entered (`s < d`); its first statement
`memcpy( b, s, linesize[0] )` copies 24001 bytes into the 24000 bytes of `b`,
a write past the end of `b`, so the copy, the row swap and the whole flip have
no defined result (one unit of fuel pays for the single row pair). -/
theorem flip_overflows_row_buffer :
    ((List.replicate 72004 (0 : Byte)).length : Int) = avpicture_get_size_yuv420p 24001 2 ∧
    (List.replicate 24000 (0 : Byte)).length = ROW_TEMP_SIZE ∧
    (avpicture_fill_yuv420p 24001 2).linesize0 = 24001 ∧
    (avpicture_fill_yuv420p 24001 2).data0 <
      (avpicture_fill_yuv420p 24001 2).data1 - (avpicture_fill_yuv420p 24001 2).linesize0 ∧
    memcpy (List.replicate 24000 0) 0 (List.replicate 72004 0)
      (avpicture_fill_yuv420p 24001 2).data0 (avpicture_fill_yuv420p 24001 2).linesize0 = none ∧
    flipYUV 1 (avpicture_fill_yuv420p 24001 2)
      { picture := List.replicate 72004 0, b := List.replicate 24000 0 } = none := by
  refine ⟨by rw [List.length_replicate]; decide, List.length_replicate _ _, by decide,
    by decide, ?_, ?_⟩
  · exact memcpy_overflow _ _ _ _ (by simp only [List.length_replicate]; decide)
  have hlt : (0 : Int) < 24001 * 2 - 24001 := by decide
  have hsw := swapRows_overflow 24001 0 (24001 * 2 - 24001)
    { picture := List.replicate 72004 0, b := List.replicate 24000 0 }
    (by simp only [List.length_replicate]; decide)
  simp only [flipYUV, avpicture_fill_yuv420p, flipLoop, if_pos hlt, hsw, Option.none_bind]

/-- Within the capacity of `b`: for every width from 1 to 24000 and every
height at least 1, on the YUV 4:2:0 buffer laid out for them the orientation
correction of `encodeFrame` succeeds (given fuel for the row pairs), keeps the
buffer size,
and reverses the rows of each plane inside that plane: luma row `r` becomes the
old luma row `height-1-r`, and row `r` of each chroma plane becomes the old row
`chromaRows-1-r` of the same chroma plane. -/
theorem flip_reverses_each_plane (w h : Nat) (picture b : List Byte) (fuel : Nat)
    (hw1 : 1 ≤ w) (hw : w ≤ 24000) (hh : 1 ≤ h)
    (hlen : (picture.length : Int) = avpicture_get_size_yuv420p w h)
    (hb : b.length = ROW_TEMP_SIZE) (hfuel : h / 2 ≤ fuel) :
    ∃ st, flipYUV fuel (avpicture_fill_yuv420p w h) { picture := picture, b := b } = some st ∧
      st.picture.length = picture.length ∧
      (∀ r, r < h → planeRow st.picture 0 w r = planeRow picture 0 w (h - 1 - r)) ∧
      (∀ r, r < (h + 1) / 2 →
        planeRow st.picture (w * h) ((w + 1) / 2) r =
        planeRow picture (w * h) ((w + 1) / 2) ((h + 1) / 2 - 1 - r)) ∧
      (∀ r, r < (h + 1) / 2 →
        planeRow st.picture (w * h + (w + 1) / 2 * ((h + 1) / 2)) ((w + 1) / 2) r =
        planeRow picture (w * h + (w + 1) / 2 * ((h + 1) / 2)) ((w + 1) / 2)
          ((h + 1) / 2 - 1 - r)) := by
  have hL := yuv420p_layout w h picture.length hlen
  have t0 : (avpicture_fill_yuv420p w h).linesize0.toNat = w := by
    simp [avpicture_fill_yuv420p]
  have t1 : (avpicture_fill_yuv420p w h).linesize1.toNat = (w + 1) / 2 := by
    simp only [avpicture_fill_yuv420p]; omega
  have hb0 : (avpicture_fill_yuv420p w h).linesize0 ≤ b.length := by
    rw [hb, ROW_TEMP_SIZE]; simp only [avpicture_fill_yuv420p]; omega
  have hb1 : (avpicture_fill_yuv420p w h).linesize1 ≤ b.length := by
    rw [hb, ROW_TEMP_SIZE]; simp only [avpicture_fill_yuv420p]; omega
  obtain ⟨st, hst, _, hl, hy, hu, hv⟩ := flipYUV_spec _ picture b h ((h + 1) / 2) fuel hL
    hb0 hb1 hfuel (by omega)
  rw [t0] at hy hu hv
  rw [t1] at hu hv
  rw [Nat.mul_comm h w, Nat.mul_comm ((h + 1) / 2) ((w + 1) / 2)] at hv
  rw [Nat.mul_comm h w] at hu
  exact ⟨st, hst, hl, hy, hu, hv⟩

/-- The row reversal on the 2 x 3 picture of ten bytes. -/
theorem flip_reverses_each_plane_sample :
    ∃ st, flipYUV 1 (avpicture_fill_yuv420p (2 : Nat) (3 : Nat))
        { picture := [1, 2, 3, 4, 5, 6, 7, 8, 9, 10], b := List.replicate 24000 0 } = some st ∧
      st.picture.length = [1, 2, 3, 4, 5, 6, 7, 8, 9, (10 : Byte)].length ∧
      (∀ r, r < 3 → planeRow st.picture 0 2 r =
        planeRow [1, 2, 3, 4, 5, 6, 7, 8, 9, 10] 0 2 (3 - 1 - r)) ∧
      (∀ r, r < (3 + 1) / 2 →
        planeRow st.picture (2 * 3) ((2 + 1) / 2) r =
        planeRow [1, 2, 3, 4, 5, 6, 7, 8, 9, 10] (2 * 3) ((2 + 1) / 2) ((3 + 1) / 2 - 1 - r)) ∧
      (∀ r, r < (3 + 1) / 2 →
        planeRow st.picture (2 * 3 + (2 + 1) / 2 * ((3 + 1) / 2)) ((2 + 1) / 2) r =
        planeRow [1, 2, 3, 4, 5, 6, 7, 8, 9, 10] (2 * 3 + (2 + 1) / 2 * ((3 + 1) / 2))
          ((2 + 1) / 2) ((3 + 1) / 2 - 1 - r)) :=
  flip_reverses_each_plane 2 3 [1, 2, 3, 4, 5, 6, 7, 8, 9, 10] (List.replicate 24000 0) 1
    (by decide) (by decide) (by decide) (by decide) (List.length_replicate _ _) (by decide)


/-! ## Sessions and the registry -/

theorem configureOutput_status (s : ffmpegHelper) (lib : ConfigureCalls)
    (fmt : AVOutputFormat) (ctx : AVFormatContext) :
    (s.configureOutput lib fmt ctx).2.m_status = (s.configureOutput lib fmt ctx).1 := by
  unfold ffmpegHelper.configureOutput ffmpegHelper.fail
  split <;> rfl

theorem configureCodec_status (s : ffmpegHelper) (lib : ConfigureCalls)
    (fmt : AVOutputFormat) (ctx : AVFormatContext) (st : AVStream) (buf : Option Nat) :
    (s.configureCodec lib fmt ctx st buf).2.m_status =
      (s.configureCodec lib fmt ctx st buf).1 := by
  unfold ffmpegHelper.configureCodec
  split
  · rfl
  split
  · rfl
  simp only []
  split
  · rfl
  split
  · rfl
  split
  · rfl
  exact configureOutput_status _ _ _ _

theorem configure_status (s : ffmpegHelper) (lib : ConfigureCalls) (fileName : String)
    (fps w h : Int) (buf : Option Nat) :
    (s.configure lib fileName fps w h buf).2.m_status =
      (s.configure lib fileName fps w h buf).1 := by
  unfold ffmpegHelper.configure
  simp only []
  split
  · rfl
  split
  · rfl
  split
  · split
    · rfl
    split
    · rfl
    exact configureCodec_status _ _ _ _ _ _
  · split
    · rfl
    exact configureOutput_status _ _ _ _

theorem configureOutput_fields (s : ffmpegHelper) (lib : ConfigureCalls)
    (fmt : AVOutputFormat) (ctx : AVFormatContext) :
    (s.configureOutput lib fmt ctx).2.m_bShutdownRequested = s.m_bShutdownRequested ∧
    (s.configureOutput lib fmt ctx).2.m_pAVIFile = s.m_pAVIFile ∧
    (s.configureOutput lib fmt ctx).2.m_videoFormat = s.m_videoFormat := by
  unfold ffmpegHelper.configureOutput ffmpegHelper.fail
  split <;> exact ⟨rfl, rfl, rfl⟩

theorem configureCodec_fields (s : ffmpegHelper) (lib : ConfigureCalls)
    (fmt : AVOutputFormat) (ctx : AVFormatContext) (st : AVStream) (buf : Option Nat) :
    (s.configureCodec lib fmt ctx st buf).2.m_bShutdownRequested = s.m_bShutdownRequested ∧
    (s.configureCodec lib fmt ctx st buf).2.m_videoFormat = s.m_videoFormat := by
  unfold ffmpegHelper.configureCodec
  split
  · exact ⟨rfl, rfl⟩
  split
  · exact ⟨rfl, rfl⟩
  simp only []
  split
  · exact ⟨rfl, rfl⟩
  split
  · exact ⟨rfl, rfl⟩
  split
  · exact ⟨rfl, rfl⟩
  have h := configureOutput_fields
    { s with
      m_pAVIFile := some { st with codec := { st.codec with isOpen := true } }
      m_videoBuffer :=
        if ctx.oformat.flags &&& AVFMT_RAWPICTURE = 0 ∧ lib.malloc_videoBuffer
        then some 200000 else none
      m_yuvFrame := some (avpicture_fill_yuv420p s.m_width s.m_height)
      picture := some (List.replicate (avpicture_get_size_yuv420p s.m_width s.m_height).toNat 0)
      m_rgbFrame := some
        { data0 := (buf.getD 0 : Nat), data1 := 0, data2 := 0,
          linesize0 := 3 * s.m_width, linesize1 := 0, linesize2 := 0 } } lib fmt ctx
  exact ⟨h.1, h.2.2⟩

theorem configure_live (s : ffmpegHelper) (lib : ConfigureCalls) (fileName : String)
    (fps w h : Int) (buf : Option Nat) :
    (s.configure lib fileName fps w h buf).2.m_bShutdownRequested =
      s.m_bShutdownRequested := by
  unfold ffmpegHelper.configure
  simp only []
  split
  · rfl
  split
  · rfl
  split
  · split
    · rfl
    split
    · rfl
    exact (configureCodec_fields _ _ _ _ _ _).1
  · split
    · rfl
    exact (configureOutput_fields _ _ _ _).1

theorem configure_format (s : ffmpegHelper) (lib : ConfigureCalls) (fileName : String)
    (fps w h : Int) (buf : Option Nat) :
    (s.configure lib fileName fps w h buf).2.m_videoFormat = lib.resolveFormat := by
  unfold ffmpegHelper.configure
  simp only []
  split
  · rfl
  split
  · rfl
  split
  · split
    · rfl
    split
    · rfl
    exact (configureCodec_fields _ _ _ _ _ _).2
  · split
    · rfl
    exact (configureOutput_fields _ _ _ _).2.2

theorem configure_videoless (s : ffmpegHelper) (lib : ConfigureCalls) (fileName : String)
    (fps w h : Int) (buf : Option Nat) (fmt : AVOutputFormat)
    (hs : s.m_pAVIFile = none)
    (hfmt : (s.configure lib fileName fps w h buf).2.m_videoFormat = some fmt)
    (hnone : fmt.video_codec = CODEC_ID_NONE) :
    (s.configure lib fileName fps w h buf).2.m_pAVIFile = none := by
  rw [configure_format] at hfmt
  unfold ffmpegHelper.configure
  simp only [hfmt]
  split
  · exact hs
  rw [if_neg (by simpa using hnone)]
  split
  · rfl
  · exact (configureOutput_fields _ _ _ _).2.1

theorem encodeFrame_no_stream (h : ffmpegHelper) (lib : EncodeCalls) (b : Option (List Byte))
    (hlive : h.m_bShutdownRequested = false) (hs : h.m_pAVIFile = none) :
    h.encodeFrame lib b = (11, { h with m_status := 11 }, b) := by
  unfold ffmpegHelper.encodeFrame
  rw [hlive, hs]
  rfl

theorem encodeFrames_no_stream (calls : List EncodeCalls) :
    ∀ (h : ffmpegHelper) (b : Option (List Byte)),
      h.m_bShutdownRequested = false → h.m_pAVIFile = none →
      (encodeFrames h b calls).2.2 = List.replicate calls.length 11 ∧
      (encodeFrames h b calls).1.m_videoContext = h.m_videoContext ∧
      (encodeFrames h b calls).1.picture = h.picture ∧
      (encodeFrames h b calls).2.1 = b ∧
      (calls ≠ [] → (encodeFrames h b calls).1.m_status = 11) := by
  induction calls with
  | nil => intro h b _ _; exact ⟨rfl, rfl, rfl, rfl, fun hc => absurd rfl hc⟩
  | cons lib rest ih =>
    intro h b hlive hs
    have e := encodeFrame_no_stream h lib b hlive hs
    obtain ⟨i1, i2, i3, i4, i5⟩ := ih { h with m_status := 11 } b hlive hs
    simp only [encodeFrames, e, List.length_cons, List.replicate_succ]
    refine ⟨by rw [i1], i2, i3, i4, fun _ => ?_⟩
    cases rest with
    | nil => rfl
    | cons l r => exact i5 (by simp)

/-- C3: `initializeStream` called with a null stream name, a zero frame rate,
a zero width, a zero height or a null image buffer returns 1 and leaves the
process state, the registry included, exactly as it was. -/
theorem initializeStream_invalid_parameter (g : Globals) (lib : ConfigureCalls)
    (streamName : Option String) (fpsRate width height : Int) (imageBuffer : Option Nat)
    (hbad : streamName = none ∨ fpsRate = 0 ∨ width = 0 ∨ height = 0 ∨ imageBuffer = none) :
    initializeStream g lib streamName fpsRate width height imageBuffer = (1, g) := by
  unfold initializeStream
  cases streamName with
  | none => rfl
  | some name =>
    cases imageBuffer with
    | none => rfl
    | some buf =>
      have hz : fpsRate = 0 ∨ width = 0 ∨ height = 0 := by
        rcases hbad with h | h | h | h | h
        · cases h
        · exact Or.inl h
        · exact Or.inr (Or.inl h)
        · exact Or.inr (Or.inr h)
        · cases h
      simp only [if_pos hz]

/-- C3 witness: a call with width 0. -/
theorem initializeStream_invalid_parameter_witness :
    ((some "out.mpg" : Option String) = none ∨ (25 : Int) = 0 ∨ (0 : Int) = 0 ∨
      (240 : Int) = 0 ∨ (some 0 : Option Nat) = none) ∧
    initializeStream Globals.start (callsOk mpegFormat) (some "out.mpg") 25 0 240 (some 0) =
      (1, Globals.start) :=
  ⟨Or.inr (Or.inr (Or.inl rfl)),
    initializeStream_invalid_parameter Globals.start (callsOk mpegFormat) (some "out.mpg")
      25 0 240 (some 0) (Or.inr (Or.inr (Or.inl rfl)))⟩

/-- For a non-null name: `shutdownStream` on a name that is not registered
returns 1 and changes nothing; and once `shutdownStream` on a name has returned
0, that name is no longer registered, so that `encodeFrame`, `getStatus` and
`shutdownStream` called next on it each return 1 (and change nothing), while
every other name maps to the session it mapped to before. -/
theorem shutdownStream_not_found (g : Globals) (streamName : String) :
    (g.s_ffmpegHelpers streamName = none →
      shutdownStream g (some streamName) = some (1, g)) ∧
    (∀ g1 : Globals, shutdownStream g (some streamName) = some (0, g1) →
      (g.s_ffmpegHelpers streamName).isSome = true ∧
      (∀ lib : EncodeCalls, encodeFrame g1 lib (some streamName) = some (1, g1)) ∧
      getStatus g1 (some streamName) = some 1 ∧
      shutdownStream g1 (some streamName) = some (1, g1) ∧
      (∀ other : String, other ≠ streamName →
        g1.s_ffmpegHelpers other = g.s_ffmpegHelpers other)) := by
  constructor
  · intro hnone
    unfold shutdownStream
    simp only [hnone]
  · intro g1 hshut
    unfold shutdownStream at hshut
    simp only [] at hshut
    cases hreg : g.s_ffmpegHelpers streamName with
    | none =>
      rw [hreg] at hshut
      simp at hshut
    | some helper =>
      rw [hreg] at hshut
      simp only [] at hshut
      cases hd : helper.destructor with
      | none => rw [hd] at hshut; simp at hshut
      | some ctx =>
        rw [hd] at hshut
        simp only [Option.some.injEq, Prod.mk.injEq, true_and] at hshut
        subst hshut
        have hgone : (g.s_ffmpegHelpers.erase streamName) streamName = none := by
          simp [ffmpegHelpers.erase]
        refine ⟨rfl, ?_, ?_, ?_, ?_⟩
        · intro lib
          unfold encodeFrame
          simp only [hgone]
        · unfold getStatus
          simp only [hgone]
        · unfold shutdownStream
          simp only [hgone]
        · intro other hne
          simp [ffmpegHelpers.erase, hne]

/-- The empty registry, and the registry holding the one session "a": the
calls on the name "a" before and after its shutdown. -/
theorem shutdownStream_not_found_sample :
    (Globals.start.s_ffmpegHelpers "a" = none ∧
      shutdownStream Globals.start (some "a") = some (1, Globals.start)) ∧
    (shutdownStream oneSession (some "a") = some (0, oneSessionClosed) ∧
      (oneSession.s_ffmpegHelpers "a").isSome = true ∧
      (∀ lib : EncodeCalls,
        encodeFrame oneSessionClosed lib (some "a") = some (1, oneSessionClosed)) ∧
      getStatus oneSessionClosed (some "a") = some 1 ∧
      shutdownStream oneSessionClosed (some "a") = some (1, oneSessionClosed) ∧
      (∀ other : String, other ≠ "a" →
        oneSessionClosed.s_ffmpegHelpers other = oneSession.s_ffmpegHelpers other)) :=
  ⟨⟨rfl, (shutdownStream_not_found Globals.start "a").1 rfl⟩,
    ⟨rfl, (shutdownStream_not_found oneSession "a").2 oneSessionClosed rfl⟩⟩

/-- C4: a `NULL` stream name is never registered (`initializeStream` refuses
it with status 1 and registers nothing), yet `shutdownStream`, `getStatus` and
`encodeFrame` called with it do not return 1: they have no null check, and
`find` builds its `std::string` key from the null pointer, which has no
result.  Shown on the empty registry and on the registry holding the session
"a". -/
theorem entry_points_null_name :
    (initializeStream Globals.start (callsOk mpegFormat) none 25 4 2 (some 0)).1 = 1 ∧
    (∀ name : String,
      (initializeStream Globals.start (callsOk mpegFormat) none 25 4 2
        (some 0)).2.s_ffmpegHelpers name = none) ∧
    shutdownStream Globals.start none = none ∧
    shutdownStream oneSession none = none ∧
    getStatus oneSession none = none ∧
    encodeFrame oneSession bufferingEncoder none = none ∧
    shutdownStream oneSession (some "b") = some (1, oneSession) :=
  ⟨rfl, fun _ => rfl, rfl, rfl, rfl, rfl, rfl⟩

/-- C5: on a session object that is not being destroyed and has no video
stream (`m_pAVIFile` is null, as the constructor leaves it and as `configure`
leaves it when it creates no stream), `encodeFrame` returns 11, the value of
the "You need to create a stream first" branch, stores 11 as the status, and
changes nothing else: the container, the picture buffer and `b` are as
before. -/
theorem encodeFrame_without_stream (h : ffmpegHelper) (lib : EncodeCalls)
    (b : Option (List Byte))
    (hlive : h.m_bShutdownRequested = false) (hs : h.m_pAVIFile = none) :
    (h.encodeFrame lib b).1 = 11 ∧
    (h.encodeFrame lib b).2.1.m_status = 11 ∧
    (h.encodeFrame lib b).2.1 = { h with m_status := 11 } ∧
    (h.encodeFrame lib b).2.1.m_videoContext = h.m_videoContext ∧
    (h.encodeFrame lib b).2.1.picture = h.picture ∧
    (h.encodeFrame lib b).2.2 = b := by
  rw [encodeFrame_no_stream h lib b hlive hs]
  exact ⟨rfl, rfl, rfl, rfl, rfl, rfl⟩

/-- C5 witness: the freshly constructed session. -/
theorem encodeFrame_without_stream_witness :
    (ffmpegHelper.new.m_bShutdownRequested = false ∧ ffmpegHelper.new.m_pAVIFile = none) ∧
    (ffmpegHelper.new.encodeFrame keyFrameEncoder Globals.start.b).1 = 11 ∧
    (ffmpegHelper.new.encodeFrame keyFrameEncoder Globals.start.b).2.1.m_status = 11 ∧
    (ffmpegHelper.new.encodeFrame keyFrameEncoder Globals.start.b).2.1 =
      { ffmpegHelper.new with m_status := 11 } ∧
    (ffmpegHelper.new.encodeFrame keyFrameEncoder Globals.start.b).2.1.m_videoContext =
      ffmpegHelper.new.m_videoContext ∧
    (ffmpegHelper.new.encodeFrame keyFrameEncoder Globals.start.b).2.1.picture =
      ffmpegHelper.new.picture ∧
    (ffmpegHelper.new.encodeFrame keyFrameEncoder Globals.start.b).2.2 = Globals.start.b :=
  ⟨⟨rfl, rfl⟩,
    encodeFrame_without_stream ffmpegHelper.new keyFrameEncoder Globals.start.b rfl rfl⟩

/-- C6 counterexample: when `av_set_parameters` fails, `configure` and
`initializeStream` return 4, the name is not registered afterwards and
`getStatus` on it returns 1, not 4. -/
theorem initializeStream_unregistered_on_failure :
    (ffmpegHelper.new.configure { callsOk mpegFormat with av_set_parameters := -1 }
      "out.mpg" 25 320 240 (some 0)).1 = 4 ∧
    (initializeStream Globals.start { callsOk mpegFormat with av_set_parameters := -1 }
      (some "out.mpg") 25 320 240 (some 0)).1 = 4 ∧
    (initializeStream Globals.start { callsOk mpegFormat with av_set_parameters := -1 }
      (some "out.mpg") 25 320 240 (some 0)).2.s_ffmpegHelpers "out.mpg" = none ∧
    getStatus (initializeStream Globals.start
      { callsOk mpegFormat with av_set_parameters := -1 }
      (some "out.mpg") 25 320 240 (some 0)).2 (some "out.mpg") = some 1 := by
  refine ⟨by decide, by decide, by decide, by decide⟩

/-- C6 (amended): for every `initializeStream` call with a non-null name,
non-zero frame rate, width and height and a non-null buffer, the call returns
the status `configure` produces on a fresh session; when that status is not 0
the process state is unchanged and nothing is registered by the call; when it
is 0 the name is registered when the call returns, and if the name was not
registered before, it maps to the configured session and `getStatus` on it
returns 0. -/
theorem initializeStream_registers_on_success (g : Globals) (lib : ConfigureCalls)
    (name : String) (fpsRate width height : Int) (buf : Nat)
    (hf : fpsRate ≠ 0) (hw : width ≠ 0) (hh : height ≠ 0) :
    (initializeStream g lib (some name) fpsRate width height (some buf)).1 =
      (ffmpegHelper.new.configure lib name fpsRate width height (some buf)).1 ∧
    ((ffmpegHelper.new.configure lib name fpsRate width height (some buf)).1 ≠ 0 →
      (initializeStream g lib (some name) fpsRate width height (some buf)).2 = g) ∧
    ((ffmpegHelper.new.configure lib name fpsRate width height (some buf)).1 = 0 →
      ((initializeStream g lib (some name) fpsRate width height
          (some buf)).2.s_ffmpegHelpers name).isSome = true ∧
      (g.s_ffmpegHelpers name = none →
        (initializeStream g lib (some name) fpsRate width height
          (some buf)).2.s_ffmpegHelpers name =
          some (ffmpegHelper.new.configure lib name fpsRate width height (some buf)).2 ∧
        getStatus (initializeStream g lib (some name) fpsRate width height (some buf)).2
          (some name) = some 0)) := by
  have hz : ¬ (fpsRate = 0 ∨ width = 0 ∨ height = 0) := by
    rintro (h | h | h)
    · exact hf h
    · exact hw h
    · exact hh h
  have hst := configure_status ffmpegHelper.new lib name fpsRate width height (some buf)
  unfold initializeStream
  simp only [if_neg hz]
  by_cases hr : (ffmpegHelper.new.configure lib name fpsRate width height (some buf)).1 = 0
  · have hr2 : ¬ (ffmpegHelper.new.configure lib name fpsRate width height (some buf)).1 ≠ 0 :=
      fun hne => hne hr
    simp only [if_neg hr2]
    refine ⟨hr.symm, fun hne => absurd hr hne, fun _ => ⟨?_, ?_⟩⟩
    · simp only [ffmpegHelpers.insert, if_pos]
      cases g.s_ffmpegHelpers name <;> rfl
    · intro hnew
      have hins : (g.s_ffmpegHelpers.insert name
          (ffmpegHelper.new.configure lib name fpsRate width height (some buf)).2) name =
          some (ffmpegHelper.new.configure lib name fpsRate width height (some buf)).2 := by
        simp only [ffmpegHelpers.insert, if_pos, hnew]
      refine ⟨hins, ?_⟩
      unfold getStatus
      simp only [hins, ffmpegHelper.getStatus, hst, hr]
  · have hr2 : (ffmpegHelper.new.configure lib name fpsRate width height (some buf)).1 ≠ 0 := hr
    rw [if_pos hr2]
    exact ⟨rfl, fun _ => rfl, fun h0 => absurd h0 hr⟩

/-- C6 witness: a successful call on the empty registry. -/
theorem initializeStream_registers_on_success_witness :
    ((25 : Int) ≠ 0 ∧ (4 : Int) ≠ 0 ∧ (2 : Int) ≠ 0) ∧
    (initializeStream Globals.start (callsOk mpegFormat) (some "a") 25 4 2 (some 0)).1 = 0 ∧
    getStatus (initializeStream Globals.start (callsOk mpegFormat) (some "a") 25 4 2
      (some 0)).2 (some "a") = some 0 :=
  ⟨⟨by decide, by decide, by decide⟩,
    ((initializeStream_registers_on_success Globals.start (callsOk mpegFormat) "a" 25 4 2 0
      (by decide) (by decide) (by decide)).1).trans (by decide),
    ((initializeStream_registers_on_success Globals.start (callsOk mpegFormat) "a" 25 4 2 0
      (by decide) (by decide) (by decide)).2.2 (by decide)).2 rfl |>.2⟩

/-- C7 counterexample: `configure` returns 0 for a format without a video
codec, the session has no stream and status 0, and `encodeFrame` on it returns
11 and stores 11 as the status. -/
theorem videoless_encodeFrame_fails :
    (ffmpegHelper.new.configure (callsOk wavFormat) "out.wav" 25 320 240 (some 0)).1 = 0 ∧
    wavSession.m_videoFormat = some wavFormat ∧
    wavFormat.video_codec = CODEC_ID_NONE ∧
    wavSession.m_pAVIFile = none ∧
    wavSession.m_status = 0 ∧
    (wavSession.encodeFrame bufferingEncoder Globals.start.b).1 = 11 ∧
    (wavSession.encodeFrame bufferingEncoder Globals.start.b).2.1.m_status = 11 := by
  refine ⟨by decide, by decide, by decide, by decide, by decide, by decide, by decide⟩

/-- C7 (amended): when `configure` on a fresh session returns 0 for a format
whose `video_codec` is `CODEC_ID_NONE`, the session has status 0 and no video
stream, and every `encodeFrame` call made on it afterwards returns 11; the
calls write nothing to the container, and after the first of them the session
status is 11. -/
theorem videoless_encodeFrame_no_stream (lib : ConfigureCalls) (fileName : String)
    (fpsRate width height : Int) (buf : Option Nat) (fmt : AVOutputFormat)
    (calls : List EncodeCalls) (b : Option (List Byte))
    (hok : (ffmpegHelper.new.configure lib fileName fpsRate width height buf).1 = 0)
    (hfmt : (ffmpegHelper.new.configure lib fileName fpsRate width height buf).2.m_videoFormat
      = some fmt)
    (hnone : fmt.video_codec = CODEC_ID_NONE) :
    (ffmpegHelper.new.configure lib fileName fpsRate width height buf).2.m_status = 0 ∧
    (ffmpegHelper.new.configure lib fileName fpsRate width height buf).2.m_pAVIFile = none ∧
    (encodeFrames (ffmpegHelper.new.configure lib fileName fpsRate width height buf).2 b
      calls).2.2 = List.replicate calls.length 11 ∧
    (encodeFrames (ffmpegHelper.new.configure lib fileName fpsRate width height buf).2 b
      calls).1.m_videoContext =
      (ffmpegHelper.new.configure lib fileName fpsRate width height buf).2.m_videoContext ∧
    (calls ≠ [] →
      (encodeFrames (ffmpegHelper.new.configure lib fileName fpsRate width height buf).2 b
        calls).1.m_status = 11) := by
  have hst := configure_status ffmpegHelper.new lib fileName fpsRate width height buf
  have hlive := configure_live ffmpegHelper.new lib fileName fpsRate width height buf
  have hns := configure_videoless ffmpegHelper.new lib fileName fpsRate width height buf fmt
    rfl hfmt hnone
  obtain ⟨e1, e2, _, _, e5⟩ := encodeFrames_no_stream calls _ b (hlive.trans rfl) hns
  exact ⟨hst.trans hok, hns, e1, e2, e5⟩

/-- C7 witness: the session of an audio-only format and two calls. -/
theorem videoless_encodeFrame_no_stream_witness :
    ((ffmpegHelper.new.configure (callsOk wavFormat) "out.wav" 25 320 240 (some 0)).1 = 0 ∧
      (ffmpegHelper.new.configure (callsOk wavFormat) "out.wav" 25 320 240
        (some 0)).2.m_videoFormat = some wavFormat ∧
      wavFormat.video_codec = CODEC_ID_NONE) ∧
    (ffmpegHelper.new.configure (callsOk wavFormat) "out.wav" 25 320 240
      (some 0)).2.m_status = 0 ∧
    (ffmpegHelper.new.configure (callsOk wavFormat) "out.wav" 25 320 240
      (some 0)).2.m_pAVIFile = none ∧
    (encodeFrames (ffmpegHelper.new.configure (callsOk wavFormat) "out.wav" 25 320 240
      (some 0)).2 Globals.start.b [bufferingEncoder, keyFrameEncoder]).2.2 =
      List.replicate [bufferingEncoder, keyFrameEncoder].length 11 ∧
    (encodeFrames (ffmpegHelper.new.configure (callsOk wavFormat) "out.wav" 25 320 240
      (some 0)).2 Globals.start.b [bufferingEncoder, keyFrameEncoder]).1.m_videoContext =
      (ffmpegHelper.new.configure (callsOk wavFormat) "out.wav" 25 320 240
        (some 0)).2.m_videoContext ∧
    ([bufferingEncoder, keyFrameEncoder] ≠ [] →
      (encodeFrames (ffmpegHelper.new.configure (callsOk wavFormat) "out.wav" 25 320 240
        (some 0)).2 Globals.start.b [bufferingEncoder, keyFrameEncoder]).1.m_status = 11) :=
  ⟨⟨by decide, by decide, by decide⟩,
    videoless_encodeFrame_no_stream (callsOk wavFormat) "out.wav" 25 320 240 (some 0)
      wavFormat [bufferingEncoder, keyFrameEncoder] Globals.start.b
      (by decide) (by decide) (by decide)⟩

/-- C8: the statuses the code records where the table on `getStatus` says 7,
8 and 9.  A failed `malloc` of the picture buffer records 8 and a failed
allocation of the RGB frame records 9 (the table has 7 for "Error allocating
video frame"); a failed `url_fopen` records 10 (the table has 8); and
`encodeFrame` without a stream records 11 (the table has 9). -/
theorem recorded_status_differs_from_table :
    (ffmpegHelper.new.configure { callsOk mpegFormat with avcodec_alloc_frame_yuv := false }
      "out.mpg" 25 320 240 (some 0)).2.m_status = 7 ∧
    (ffmpegHelper.new.configure { callsOk mpegFormat with malloc_picture_buf := false }
      "out.mpg" 25 320 240 (some 0)).2.m_status = 8 ∧
    (ffmpegHelper.new.configure { callsOk mpegFormat with avcodec_alloc_frame_rgb := false }
      "out.mpg" 25 320 240 (some 0)).2.m_status = 9 ∧
    (ffmpegHelper.new.configure { callsOk mpegFormat with url_fopen := -1 }
      "out.mpg" 25 320 240 (some 0)).2.m_status = 10 ∧
    (ffmpegHelper.new.encodeFrame bufferingEncoder Globals.start.b).2.1.m_status = 11 := by
  refine ⟨by decide, by decide, by decide, by decide, by decide⟩

/-- C10: the session `configure` sets up for 320 x 240 has a video stream and
a compressed-output buffer of 200000 bytes, and `encodeFrame` passes
`320*240*30 = 2304000` to the encoder as the capacity of that buffer, which is
more than the buffer holds. -/
theorem encode_capacity_exceeds_buffer :
    mpegSession.m_status = 0 ∧
    mpegSession.m_pAVIFile.isSome = true ∧
    mpegSession.m_videoBuffer = some 200000 ∧
    mpegSession.encodeBufSize = 2304000 ∧
    ¬ (mpegSession.encodeBufSize ≤ 200000) ∧
    (mpegSession.encodeFrame capacityProbe Globals.start.b).2.1.m_videoContext = some
      { mpegContext with
        written := [MuxEvent.header, MuxEvent.packet
          { flags := 0, stream_index := 0, data := some 200000, size := 2304000 }] } := by
  refine ⟨by decide, by decide, by decide, by decide, by decide, by decide⟩

end GLFFmpeg
